import Mathlib

/-!
Shallow embedding of the `create-release` command of the EhTagTranslation
Editor repository (`src/tool/commands/create-release/index.ts`), covering the
consistency checker (`runSourceCheck`), the packager (`save`), the
orchestrator (`createRelease`) and the CI logger (`ActionLogger`).

External collaborators (the `pako` gzip codec, base64 encoding, the
`normalizeTag` resolver, the terminal) are modelled as function parameters,
so every theorem quantifies over them; the control flow and data flow of the
file itself are translated definition by definition. Definitions come first,
theorems follow.
-/

/-- Severities of the logger channel, ordered info < warn < error. -/
inductive Severity where
  | info
  | warn
  | error
deriving DecidableEq, Repr

/-- Numeric rank realising the order info < warn < error. -/
def Severity.rank : Severity → Nat
  | .info => 0
  | .warn => 1
  | .error => 2

/-- Boolean order on severities: `sevLe a b` means `a` is at or below `b`. -/
def sevLe (a b : Severity) : Bool := a.rank ≤ b.rank

/-- A `(tag, tagLine)` pair's line payload: the raw record and its source
line, as produced by `nsDb.raw()`. -/
structure TagLine where
  record : String
  line : Nat
deriving DecidableEq, Repr

/-- Diagnostic handle built per tag in `runSourceCheck`:
`const c = new Context(tagLine.record, tag); c.line = tagLine.line`.
The namespace name is the one the checker is iterating; `raw` is the raw
tag text. -/
structure Context where
  nsName : String
  raw : Option String
  line : Option Nat
deriving DecidableEq, Repr

/-- Context the checker builds for the tag `tag` of namespace `ns` at
`tagLine` (the `context()` closure in `runSourceCheck`). -/
def mkContext (ns tag : String) (tl : TagLine) : Context :=
  { nsName := ns, raw := some tag, line := some tl.line }

/-- One call into the logger: severity channel, context and message. -/
structure LogCall where
  sev : Severity
  ctx : Context
  msg : String
deriving DecidableEq, Repr

/-- Message of the info finding for a short unmatched tag. -/
def msgTooShort : String := "Tag is too short, you should check it manually."

/-- Message of the warn finding for an unmatched tag. -/
def msgNotFound : String := "Tag not found."

/-- Message of the warn finding for a renamed tag: the code emits
`Tag renamed: => ${normTag[0]}:${normTag[1]}`. -/
def msgRenamed (cns ctag : String) : String :=
  "Tag renamed: => " ++ cns ++ ":" ++ ctag

/-- Logger calls `runSourceCheck` makes for one `(tag, tagLine)` pair of
namespace `ns`, given the result of `normalizeTag ns tag`: the body of the
inner loop at lines 98-119 of the source, with the cosmetic progress
writes stripped (they are modelled separately in `tagEffects`). -/
def checkTag (normalize : String → String → Option (String × String))
    (ns tag : String) (tl : TagLine) : List LogCall :=
  match normalize ns tag with
  | none =>
    if tag.length ≤ 2 then
      [⟨Severity.info, mkContext ns tag tl, msgTooShort⟩]
    else
      [⟨Severity.warn, mkContext ns tag tl, msgNotFound⟩]
  | some normTag =>
    if normTag.2 ≠ tag then
      [⟨Severity.warn, mkContext ns tag tl, msgRenamed normTag.1 normTag.2⟩]
    else
      []

/-- One namespace of the database: `db.data[ns]`, with its name and its
iterable of `(tag, tagLine)` pairs as returned by `raw()`. -/
structure NamespaceData where
  name : String
  tags : List (String × TagLine)
deriving DecidableEq, Repr

/-- Size of a namespace (`ns.size`): its number of tag records. -/
def NamespaceData.size (ns : NamespaceData) : Nat := ns.tags.length

/-- The database snapshot `db.data`: its namespaces in iteration order. -/
structure Database where
  data : List NamespaceData
deriving DecidableEq, Repr

/-- Total tag count computed by `runSourceCheck`:
`Object.values(db.data).reduce((sum, ns) => sum + (ns.name === 'rows' ? 0 : ns.size), 0)`. -/
def totalSize (db : Database) : Nat :=
  db.data.foldl (fun sum ns => sum + (if ns.name = "rows" then 0 else ns.size)) 0

/-- Observable effects of the checker loop: writes to stderr (progress
display) and calls into the logger (findings). -/
inductive Effect where
  | stderrWrite (s : String)
  | logCall (c : LogCall)
deriving DecidableEq, Repr

/-- Effects of one iteration of the inner loop of `runSourceCheck` for the
pair `(tag, tl)` of namespace `ns`, after `count++`: when `showProgress`
holds, the loop first clears the line, writes the progress line and moves
to the line beginning; each branch that logs clears the line again just
before logging. The cosmetic texts (`clearLine`, the padded progress line,
`clc.move.lineBegin`) are parameters `cl`, `pl count ns tag` and `lb`. -/
def tagEffects (showProgress : Bool) (pl : Nat → String → String → String)
    (cl lb : String)
    (normalize : String → String → Option (String × String))
    (ns tag : String) (tl : TagLine) (count : Nat) : List Effect :=
  (if showProgress then
    [Effect.stderrWrite cl, Effect.stderrWrite (pl count ns tag),
     Effect.stderrWrite lb]
   else []) ++
  (match normalize ns tag with
   | none =>
     if tag.length ≤ 2 then
       (if showProgress then [Effect.stderrWrite cl] else []) ++
         [Effect.logCall ⟨Severity.info, mkContext ns tag tl, msgTooShort⟩]
     else
       (if showProgress then [Effect.stderrWrite cl] else []) ++
         [Effect.logCall ⟨Severity.warn, mkContext ns tag tl, msgNotFound⟩]
   | some normTag =>
     if normTag.2 ≠ tag then
       (if showProgress then [Effect.stderrWrite cl] else []) ++
         [Effect.logCall ⟨Severity.warn, mkContext ns tag tl,
           msgRenamed normTag.1 normTag.2⟩]
     else [])

/-- Effects of the inner loop of `runSourceCheck` over the pairs of one
namespace, threading the running `count`. -/
def nsEffects (showProgress : Bool) (pl : Nat → String → String → String)
    (cl lb : String)
    (normalize : String → String → Option (String × String))
    (nsName : String) : List (String × TagLine) → Nat → List Effect
  | [], _ => []
  | p :: ps, c =>
    tagEffects showProgress pl cl lb normalize nsName p.1 p.2 (c + 1) ++
      nsEffects showProgress pl cl lb normalize nsName ps (c + 1)

/-- Effects of the outer loop of `runSourceCheck` over the namespaces of
`db.data`: the meta-namespace "rows" is skipped (`if (ns === 'rows') continue`). -/
def dbEffects (showProgress : Bool) (pl : Nat → String → String → String)
    (cl lb : String)
    (normalize : String → String → Option (String × String)) :
    List NamespaceData → Nat → List Effect
  | [], _ => []
  | ns :: rest, c =>
    if ns.name = "rows" then
      dbEffects showProgress pl cl lb normalize rest c
    else
      nsEffects showProgress pl cl lb normalize ns.name ns.tags c ++
        dbEffects showProgress pl cl lb normalize rest (c + ns.tags.length)

/-- Findings of an effect trace: the logger calls, in order, with the
stderr writes dropped. -/
def findingsOf : List Effect → List LogCall :=
  List.filterMap fun e =>
    match e with
    | Effect.logCall c => some c
    | Effect.stderrWrite _ => none

/-- Tags visited by the checker loop, as `(namespace, tag)` pairs, in
iteration order. -/
def visitedTags : List NamespaceData → List (String × String)
  | [] => []
  | ns :: rest =>
    (if ns.name = "rows" then [] else ns.tags.map fun p => (ns.name, p.1)) ++
      visitedTags rest

/-- The `setFailed` record of `ActionLogger`: which severities mark the run
as failed when logged. -/
structure SetFailed where
  info : Bool
  warn : Bool
  error : Bool
deriving DecidableEq, Repr

/-- Field initializer of `ActionLogger.setFailed`:
`{ info: false, warn: false, error: true }`. -/
def initSetFailed : SetFailed := ⟨false, false, true⟩

/-- Lookup of the `setFailed` record at a severity. -/
def SetFailed.get (sf : SetFailed) : Severity → Bool
  | .info => sf.info
  | .warn => sf.warn
  | .error => sf.error

/-- The `ActionLogger` constructor's switch on the `failed` threshold, with
its deliberate case fall-through: starting from `initSetFailed`, the case
for `info` also sets `warn` and `error`, the case for `warn` also sets
`error`. -/
def actionLoggerSetFailed : Severity → SetFailed
  | .info => { initSetFailed with info := true, warn := true, error := true }
  | .warn => { initSetFailed with warn := true, error := true }
  | .error => { initSetFailed with error := true }

/-- Default value of the constructor parameter `failed` of `ActionLogger`. -/
def actionLoggerDefaultThreshold : Severity := .error

/-- Threshold the CLI passes to `ActionLogger`:
`new ActionLogger(strict ? 'warn' : 'error')`. -/
def cliThreshold (strict : Bool) : Severity :=
  if strict then .warn else .error

/-- A CI annotation call made by `ActionLogger.log`: the channel
(`notice`/`warning`/`error` of the actions toolkit keyed by severity), the
formatted message, and the file/line attribution. -/
structure Annot where
  channel : Severity
  message : String
  file : String
  startLine : Option Nat
deriving DecidableEq, Repr

/-- `ActionLogger.buildMessage`:
the formatted text `<namespace>:<rawOrUnknown>: <message>`. -/
def buildMessage (ctx : Context) (message : String) : String :=
  ctx.nsName ++ ":" ++ (ctx.raw.getD "<unknown raw>") ++ ": " ++ message

/-- Process state the logger touches: the deferred exit code
(`process.exitCode`, 0 meaning success) and the annotations emitted so far. -/
structure ProcState where
  exitCode : Nat
  annots : List Annot
deriving DecidableEq, Repr

/-- The non-zero failure value `action.ExitCode.Failure`. -/
def failureExitCode : Nat := 1

/-- `ActionLogger.log`: emit the annotation for the severity channel, then,
when `setFailed` marks the severity, set the deferred exit code to the
failure value. It never aborts: the updated state is always returned. -/
def actionLoggerLog (sf : SetFailed) (sev : Severity) (ctx : Context)
    (message : String) (st : ProcState) : ProcState :=
  let st' := { st with
    annots := st.annots ++
      [⟨sev, buildMessage ctx message,
        "database/" ++ ctx.nsName ++ ".md", ctx.line⟩] }
  if sf.get sev then { st' with exitCode := failureExitCode } else st'

/-- A whole run of logger calls, in order. -/
def logAll (sf : SetFailed) : List LogCall → ProcState → ProcState
  | [], st => st
  | e :: es, st => logAll sf es (actionLoggerLog sf e.sev e.ctx e.msg st)

/-- Single-quote character, used inside the generated script text. -/
def sqc : String := String.singleton (Char.ofNat 39)

/-- First chunk written to `db.<type>.js`:
the self-invoking function header declaring the object with its `c` key
and opening the `d` value. -/
def jsHead (type : String) : String :=
  "(function()\x7bvar d=\x7bc:" ++ sqc ++ "load_ehtagtranslation_db_" ++ type
    ++ sqc ++ ",d:" ++ sqc

/-- Third chunk written to `db.<type>.js`: closes the `d` value and the
object declaration. -/
def jsMid : String := sqc ++ "\x7d;"

/-- Last chunk written to `db.<type>.js`: closes and invokes the function. -/
def jsTail : String := "\x7d)();"

/-- The three artifacts `save` writes for one representation kind: the JSON
text of `db.<type>.json`, the compressed bytes of `db.<type>.json.gz`
(their carrier `β` is abstract, `pako.gzip` being external), and the text
of `db.<type>.js`. -/
structure SaveResult (β : Type) where
  jsonFile : String
  gzFile : β
  jsFile : String

/-- The `save` function of the packager: serialize the rendered data to
JSON, compress it, and emit the three artifacts; the script artifact is
the in-order concatenation of the five chunks written to the stream:
header, base64 of the compressed bytes, closing quote chunk, the embedded
`pako` inflate source verbatim, and the invocation chunk. `gzipF`,
`base64F` and `pakoSrc` stand for the external `pako.gzip`,
`Buffer.toString` base64 and the embedded decompressor source. -/
def save {α β : Type} (gzipF : String → β) (base64F : β → String)
    (pakoSrc : String) (stringifyF : α → String) (data : α) (type : String) :
    SaveResult β :=
  let json := stringifyF data
  let gz := gzipF json
  { jsonFile := json
    gzFile := gz
    jsFile :=
      String.join [jsHead type, base64F gz, jsMid, pakoSrc, jsTail] }

/-- Identity compressor over `String` payloads, an admissible instance of
the external gzip contract. -/
def gzipId : String → String := id

/-- Identity decompressor, the inverse of `gzipId`. -/
def inflateId : String → String := id

/-- Identity base64 encoder over `String` payloads. -/
def base64Id : String → String := id

/-- Identity base64 decoder, the inverse of `base64Id`. -/
def b64decId : String → String := id

/-- Identity serializer for an already-serialized payload. -/
def stringifyId : String → String := id

/-- Process environment as far as `createRelease` manipulates it: the
current working directory. -/
structure ProcEnv where
  cwd : String
deriving DecidableEq, Repr

/-- The five representation kinds packaged by `createRelease`. -/
def releaseTypes : List String := ["full", "raw", "text", "html", "ast"]

/-- The packaging loop `for (const k of types) await save(data[k], k)`:
each save step may fail (first component of its result is the error, if
any) and may touch the environment; a failing step stops the loop and its
error propagates. -/
def runSaves (saveK : String → ProcEnv → Option String × ProcEnv) :
    List String → ProcEnv → Option String × ProcEnv
  | [], st => (none, st)
  | k :: ks, st =>
    match saveK k st with
    | (some e, st') => (some e, st')
    | (none, st') => runSaves saveK ks st'

/-- The working-directory handling of `createRelease`: remember
`process.cwd()`, `process.chdir(destination)`, run the packaging loop, and
`process.chdir(old)` afterwards — with no try/finally, so a packaging
error propagates before the restoring chdir runs. -/
def createReleaseRun (saveK : String → ProcEnv → Option String × ProcEnv)
    (destination : String) (st : ProcEnv) : Option String × ProcEnv :=
  let old := st.cwd
  match runSaves saveK releaseTypes { st with cwd := destination } with
  | (some e, st2) => (some e, st2)
  | (none, st2) => (none, { st2 with cwd := old })

theorem findingsOf_append (a b : List Effect) :
    findingsOf (a ++ b) = findingsOf a ++ findingsOf b :=
  List.filterMap_append a b _

theorem findingsOf_tagEffects (sp : Bool) (pl : Nat → String → String → String)
    (cl lb : String) (normalize : String → String → Option (String × String))
    (ns tag : String) (tl : TagLine) (c : Nat) :
    findingsOf (tagEffects sp pl cl lb normalize ns tag tl c) =
      checkTag normalize ns tag tl := by
  unfold tagEffects checkTag
  rw [findingsOf_append]
  cases h : normalize ns tag with
  | none =>
    cases sp <;> by_cases hl : tag.length ≤ 2 <;>
      simp [hl, findingsOf, instDecidableNot]
  | some nt =>
    cases sp <;> by_cases hl : nt.2 = tag <;>
      simp [hl, findingsOf, instDecidableNot]

theorem findingsOf_nsEffects (sp1 sp2 : Bool)
    (pl1 pl2 : Nat → String → String → String) (cl1 cl2 lb1 lb2 : String)
    (normalize : String → String → Option (String × String))
    (nsName : String) (ps : List (String × TagLine)) (c1 c2 : Nat) :
    findingsOf (nsEffects sp1 pl1 cl1 lb1 normalize nsName ps c1) =
      findingsOf (nsEffects sp2 pl2 cl2 lb2 normalize nsName ps c2) := by
  induction ps generalizing c1 c2 with
  | nil => rfl
  | cons p ps ih =>
    simp only [nsEffects, findingsOf_append, findingsOf_tagEffects]
    rw [ih (c1 + 1) (c2 + 1)]

theorem findingsOf_dbEffects (sp1 sp2 : Bool)
    (pl1 pl2 : Nat → String → String → String) (cl1 cl2 lb1 lb2 : String)
    (normalize : String → String → Option (String × String))
    (l : List NamespaceData) (c1 c2 : Nat) :
    findingsOf (dbEffects sp1 pl1 cl1 lb1 normalize l c1) =
      findingsOf (dbEffects sp2 pl2 cl2 lb2 normalize l c2) := by
  induction l generalizing c1 c2 with
  | nil => rfl
  | cons ns rest ih =>
    simp only [dbEffects]
    by_cases h : ns.name = "rows"
    · rw [if_pos h, if_pos h, ih c1 c2]
    · rw [if_neg h, if_neg h, findingsOf_append, findingsOf_append,
        findingsOf_nsEffects sp1 sp2 pl1 pl2 cl1 cl2 lb1 lb2 normalize
          ns.name ns.tags c1 c2,
        ih (c1 + ns.tags.length) (c2 + ns.tags.length)]

theorem mem_checkTag_nsName (normalize : String → String → Option (String × String))
    (ns tag : String) (tl : TagLine) (f : LogCall)
    (hf : f ∈ checkTag normalize ns tag tl) : f.ctx.nsName = ns := by
  unfold checkTag at hf
  cases h : normalize ns tag with
  | none =>
    rw [h] at hf
    by_cases hl : tag.length ≤ 2 <;> simp [hl] at hf <;> simp [hf, mkContext]
  | some nt =>
    rw [h] at hf
    by_cases hl : nt.2 = tag <;> simp [hl] at hf
    simp [hf, mkContext]

theorem mem_nsEffects_nsName (sp : Bool) (pl : Nat → String → String → String)
    (cl lb : String) (normalize : String → String → Option (String × String))
    (nsName : String) (ps : List (String × TagLine)) (c : Nat) (f : LogCall)
    (hf : f ∈ findingsOf (nsEffects sp pl cl lb normalize nsName ps c)) :
    f.ctx.nsName = nsName := by
  induction ps generalizing c with
  | nil => simp [nsEffects, findingsOf] at hf
  | cons p ps ih =>
    rw [nsEffects, findingsOf_append, findingsOf_tagEffects] at hf
    rcases List.mem_append.mp hf with h1 | h2
    · exact mem_checkTag_nsName normalize nsName p.1 p.2 f h1
    · exact ih (c + 1) h2

theorem mem_dbEffects_not_rows (sp : Bool) (pl : Nat → String → String → String)
    (cl lb : String) (normalize : String → String → Option (String × String))
    (l : List NamespaceData) (c : Nat) (f : LogCall)
    (hf : f ∈ findingsOf (dbEffects sp pl cl lb normalize l c)) :
    f.ctx.nsName ≠ "rows" := by
  induction l generalizing c with
  | nil => simp [dbEffects, findingsOf] at hf
  | cons ns rest ih =>
    rw [dbEffects] at hf
    by_cases h : ns.name = "rows"
    · rw [if_pos h] at hf
      exact ih c hf
    · rw [if_neg h, findingsOf_append] at hf
      rcases List.mem_append.mp hf with h1 | h2
      · rw [mem_nsEffects_nsName sp pl cl lb normalize ns.name ns.tags c f h1]
        exact h
      · exact ih (c + ns.tags.length) h2

theorem totalSize_foldl (l : List NamespaceData) (a : Nat) :
    List.foldl (fun sum ns => sum + (if ns.name = "rows" then 0 else ns.size)) a l
      = a + ((l.filter fun ns => ns.name ≠ "rows").map NamespaceData.size).sum := by
  induction l generalizing a with
  | nil => simp
  | cons ns rest ih =>
    by_cases h : ns.name = "rows" <;>
      simp [List.foldl_cons, h, ih, Nat.add_assoc]

theorem mem_visitedTags_not_rows (l : List NamespaceData)
    (v : String × String) (hv : v ∈ visitedTags l) : v.1 ≠ "rows" := by
  induction l with
  | nil => simp [visitedTags] at hv
  | cons ns rest ih =>
    rw [visitedTags] at hv
    rcases List.mem_append.mp hv with h1 | h2
    · by_cases h : ns.name = "rows"
      · rw [if_pos h] at h1
        exact absurd h1 (List.not_mem_nil v)
      · rw [if_neg h] at h1
        obtain ⟨p, _, hp⟩ := List.mem_map.mp h1
        rw [← hp]
        exact h
    · exact ih h2

theorem setFailed_get_eq_sevLe (t s : Severity) :
    (actionLoggerSetFailed t).get s = sevLe t s := by
  cases t <;> cases s <;> rfl

theorem logAll_exitCode (sf : SetFailed) (es : List LogCall) (st : ProcState) :
    (logAll sf es st).exitCode =
      if es.any (fun e => sf.get e.sev) then failureExitCode else st.exitCode := by
  induction es generalizing st with
  | nil => simp [logAll]
  | cons e es ih =>
    rw [logAll, ih]
    by_cases h : sf.get e.sev
    · simp [h, actionLoggerLog]
    · simp [h, actionLoggerLog]

theorem sevLe_warn_iff (t : Severity) :
    sevLe t .warn = true ↔ (t = .warn ∨ t = .info) := by
  cases t <;> simp [sevLe, Severity.rank]

theorem save_jsFile_eq {α β : Type} (gzipF : String → β)
    (base64F : β → String) (pakoSrc : String) (stringifyF : α → String)
    (data : α) (type : String) :
    (save gzipF base64F pakoSrc stringifyF data type).jsFile =
      jsHead type ++
        base64F (save gzipF base64F pakoSrc stringifyF data type).gzFile ++
        jsMid ++ pakoSrc ++ jsTail := by
  have hgz : (save gzipF base64F pakoSrc stringifyF data type).gzFile =
      gzipF (stringifyF data) := rfl
  have hjs : (save gzipF base64F pakoSrc stringifyF data type).jsFile =
      String.join [jsHead type, base64F (gzipF (stringifyF data)), jsMid,
        pakoSrc, jsTail] := rfl
  rw [hjs, hgz]
  simp [String.join, String.append_assoc]

/-- C1: a tag whose normalization yields no match produces exactly one
finding: an info-level "too short" finding when its raw length is ≤ 2, and
a warn-level "tag not found" finding when its raw length is > 2. -/
theorem checker_unmatched_tag_findings
    (normalize : String → String → Option (String × String))
    (ns tag : String) (tl : TagLine)
    (h : normalize ns tag = none) :
    (tag.length ≤ 2 →
      checkTag normalize ns tag tl =
        [⟨Severity.info, mkContext ns tag tl, msgTooShort⟩]) ∧
    (tag.length > 2 →
      checkTag normalize ns tag tl =
        [⟨Severity.warn, mkContext ns tag tl, msgNotFound⟩]) := by
  unfold checkTag
  rw [h]
  constructor
  · intro hle
    simp [hle]
  · intro hgt
    have : ¬ tag.length ≤ 2 := by omega
    simp [this]

/-- Witness for C1 at the concrete tags "zz" (length 2, info) and
"abc" (length 3, warn), with a resolver that matches nothing. -/
theorem checker_unmatched_tag_findings_witness :
    checkTag (fun _ _ => none) "artist" "zz" ⟨"", 1⟩ =
      [⟨Severity.info, mkContext "artist" "zz" ⟨"", 1⟩, msgTooShort⟩] ∧
    checkTag (fun _ _ => none) "artist" "abc" ⟨"", 2⟩ =
      [⟨Severity.warn, mkContext "artist" "abc" ⟨"", 2⟩, msgNotFound⟩] :=
  ⟨(checker_unmatched_tag_findings (fun _ _ => none) "artist" "zz" ⟨"", 1⟩
      rfl).1 (by decide),
   (checker_unmatched_tag_findings (fun _ _ => none) "artist" "abc" ⟨"", 2⟩
      rfl).2 (by decide)⟩

/-- C2: a tag whose normalization yields a canonical match produces exactly
one warn-level finding naming the canonical replacement
`<namespace>:<canonicalTag>` when the canonical tag name differs from the
stored tag text, and no finding at all when it is equal. -/
theorem checker_renamed_tag_finding
    (normalize : String → String → Option (String × String))
    (ns tag : String) (tl : TagLine) (cns ctag : String)
    (h : normalize ns tag = some (cns, ctag)) :
    (ctag ≠ tag →
      checkTag normalize ns tag tl =
        [⟨Severity.warn, mkContext ns tag tl, msgRenamed cns ctag⟩]) ∧
    (ctag = tag → checkTag normalize ns tag tl = []) := by
  unfold checkTag
  rw [h]
  constructor
  · intro hne
    simp [hne]
  · intro heq
    simp [heq]

/-- Witness for C2: "xx" canonically renamed to "xy" yields the warn
finding naming "female:xy"; "ok" matching itself yields no finding. -/
theorem checker_renamed_tag_finding_witness :
    checkTag (fun _ _ => some ("female", "xy")) "female" "xx" ⟨"", 3⟩ =
      [⟨Severity.warn, mkContext "female" "xx" ⟨"", 3⟩,
        msgRenamed "female" "xy"⟩] ∧
    checkTag (fun _ _ => some ("female", "ok")) "female" "ok" ⟨"", 4⟩ = [] :=
  ⟨(checker_renamed_tag_finding (fun _ _ => some ("female", "xy"))
      "female" "xx" ⟨"", 3⟩ "female" "xy" rfl).1 (by decide),
   (checker_renamed_tag_finding (fun _ _ => some ("female", "ok"))
      "female" "ok" ⟨"", 4⟩ "female" "ok" rfl).2 rfl⟩

/-- C10: the checker compares only the canonical tag name against the
stored tag text, not the canonical namespace against the iterated one:
a match with the same tag name in a different namespace emits no finding. -/
theorem checker_ignores_canonical_namespace
    (normalize : String → String → Option (String × String))
    (ns tag : String) (tl : TagLine) (cns : String)
    (h : normalize ns tag = some (cns, tag))
    (hne : cns ≠ ns) :
    checkTag normalize ns tag tl = [] := by
  unfold checkTag
  rw [h]
  simp

/-- Witness for C10: a match under namespace "language" for a tag iterated
in namespace "artist", same tag name, emits no finding. -/
theorem checker_ignores_canonical_namespace_witness :
    checkTag (fun _ t => some ("language", t)) "artist" "abc" ⟨"", 5⟩ = [] :=
  checker_ignores_canonical_namespace (fun _ t => some ("language", t))
    "artist" "abc" ⟨"", 5⟩ "language" rfl (by decide)

/-- C9: for the same database and the same canonical resolver, the checker
produces the same findings, at the same severities, in the same order,
whatever the progress display state (and whatever the cosmetic texts and
starting count): the progress display is purely cosmetic. -/
theorem checker_progress_is_cosmetic
    (sp1 sp2 : Bool) (pl1 pl2 : Nat → String → String → String)
    (cl1 cl2 lb1 lb2 : String)
    (normalize : String → String → Option (String × String))
    (db : Database) (c1 c2 : Nat) :
    findingsOf (dbEffects sp1 pl1 cl1 lb1 normalize db.data c1) =
      findingsOf (dbEffects sp2 pl2 cl2 lb2 normalize db.data c2) :=
  findingsOf_dbEffects sp1 sp2 pl1 pl2 cl1 cl2 lb1 lb2 normalize db.data c1 c2

/-- C5: the checker never visits a tag of the meta-namespace "rows", no
finding is ever attributed to it, and the total tag count it computes
equals the sum of the sizes of all namespaces except "rows". -/
theorem checker_excludes_rows_meta_namespace
    (sp : Bool) (pl : Nat → String → String → String) (cl lb : String)
    (normalize : String → String → Option (String × String))
    (db : Database) (c : Nat) :
    (∀ v ∈ visitedTags db.data, v.1 ≠ "rows") ∧
    (∀ f ∈ findingsOf (dbEffects sp pl cl lb normalize db.data c),
      f.ctx.nsName ≠ "rows") ∧
    totalSize db =
      ((db.data.filter fun ns => ns.name ≠ "rows").map NamespaceData.size).sum := by
  refine ⟨?_, ?_, ?_⟩
  · intro v hv
    exact mem_visitedTags_not_rows db.data v hv
  · intro f hf
    exact mem_dbEffects_not_rows sp pl cl lb normalize db.data c f hf
  · unfold totalSize
    rw [totalSize_foldl]
    exact Nat.zero_add _

/-- Witness for C5 on a concrete two-namespace database whose first entry
is the meta-namespace "rows": the visited tag and the emitted finding both
come from "artist", and the total size counts only that namespace. -/
theorem checker_excludes_rows_meta_namespace_witness :
    ("artist", "abc").1 ≠ "rows" ∧
    (⟨Severity.warn, mkContext "artist" "abc" ⟨"", 2⟩, msgNotFound⟩ :
      LogCall).ctx.nsName ≠ "rows" ∧
    totalSize ⟨[⟨"rows", [("r", ⟨"", 1⟩)]⟩, ⟨"artist", [("abc", ⟨"", 2⟩)]⟩]⟩ = 1 := by
  have h := checker_excludes_rows_meta_namespace false (fun _ _ _ => "") "" ""
    (fun _ _ => none)
    ⟨[⟨"rows", [("r", ⟨"", 1⟩)]⟩, ⟨"artist", [("abc", ⟨"", 2⟩)]⟩]⟩ 0
  refine ⟨h.1 ("artist", "abc") (by decide), h.2.1 _ ?_, ?_⟩
  · show _ ∈ findingsOf (dbEffects false (fun _ _ _ => "") "" "" (fun _ _ => none)
      [⟨"rows", [("r", ⟨"", 1⟩)]⟩, ⟨"artist", [("abc", ⟨"", 2⟩)]⟩] 0)
    decide
  · rw [h.2.2]
    decide

/-- C3: constructing the logger with threshold t marks exactly the
severities at or above t as should-fail (info marks all three, warn marks
warn and error, error marks only error); the default threshold is error
and strict mode selects warn. -/
theorem action_logger_threshold_monotone :
    (∀ t s : Severity, (actionLoggerSetFailed t).get s = sevLe t s) ∧
    actionLoggerSetFailed .info = ⟨true, true, true⟩ ∧
    actionLoggerSetFailed .warn = ⟨false, true, true⟩ ∧
    actionLoggerSetFailed .error = ⟨false, false, true⟩ ∧
    actionLoggerDefaultThreshold = .error ∧
    cliThreshold true = .warn ∧ cliThreshold false = .error :=
  ⟨setFailed_get_eq_sevLe, rfl, rfl, rfl, rfl, rfl, rfl⟩

/-- C4: logging a finding at a severity at or above the threshold sets the
deferred exit code to the non-zero failure value; logging below the
threshold leaves it unchanged; the annotation is always emitted (the
logger never aborts); and a nonempty run of warn-only findings sets the
failure signal iff the threshold is warn or info. -/
theorem action_logger_deferred_failure
    (t s : Severity) (ctx : Context) (message : String) (st : ProcState)
    (es : List LogCall) :
    (sevLe t s = true →
      (actionLoggerLog (actionLoggerSetFailed t) s ctx message st).exitCode =
        failureExitCode ∧ failureExitCode ≠ 0) ∧
    (sevLe t s = false →
      (actionLoggerLog (actionLoggerSetFailed t) s ctx message st).exitCode =
        st.exitCode) ∧
    ((actionLoggerLog (actionLoggerSetFailed t) s ctx message st).annots =
      st.annots ++
        [⟨s, buildMessage ctx message,
          "database/" ++ ctx.nsName ++ ".md", ctx.line⟩]) ∧
    (es ≠ [] → (∀ e ∈ es, e.sev = .warn) →
      ((logAll (actionLoggerSetFailed t) es ⟨0, []⟩).exitCode ≠ 0 ↔
        (t = .warn ∨ t = .info))) := by
  refine ⟨?_, ?_, ?_, ?_⟩
  · intro h
    refine ⟨?_, by decide⟩
    unfold actionLoggerLog
    rw [setFailed_get_eq_sevLe, h]
    rfl
  · intro h
    unfold actionLoggerLog
    rw [setFailed_get_eq_sevLe, h]
    rfl
  · unfold actionLoggerLog
    by_cases h : (actionLoggerSetFailed t).get s <;> simp [h]
  · intro hne hw
    rw [logAll_exitCode]
    have : es.any (fun e => (actionLoggerSetFailed t).get e.sev) =
        sevLe t .warn := by
      cases es with
      | nil => exact absurd rfl hne
      | cons e es' =>
        rw [List.any_cons, hw e (List.mem_cons_self e es'),
          setFailed_get_eq_sevLe]
        cases hs : sevLe t .warn
        · rw [Bool.false_or]
          apply List.any_eq_false.mpr
          intro x hx
          rw [hw x (List.mem_cons_of_mem e hx), setFailed_get_eq_sevLe, hs]
          exact Bool.false_ne_true
        · rw [Bool.true_or]
    rw [this]
    cases hs : sevLe t .warn
    · rw [if_neg (by simp)]
      simp only [ne_eq, not_true_eq_false, false_iff]
      intro hc
      rw [← sevLe_warn_iff t, hs] at hc
      exact Bool.false_ne_true hc
    · rw [if_pos rfl]
      exact ⟨fun _ => (sevLe_warn_iff t).mp hs, fun _ => by decide⟩

/-- Witness for C4 at threshold warn: a warn finding sets the exit code to
the failure value, an info finding logged under threshold error leaves it
at 0, and a one-element warn-only run fails. -/
theorem action_logger_deferred_failure_witness :
    ((actionLoggerLog (actionLoggerSetFailed .warn) .warn
        (mkContext "artist" "abc" ⟨"", 2⟩) msgNotFound ⟨0, []⟩).exitCode =
      failureExitCode ∧ failureExitCode ≠ 0) ∧
    (actionLoggerLog (actionLoggerSetFailed .error) .warn
        (mkContext "artist" "abc" ⟨"", 2⟩) msgNotFound ⟨0, []⟩).exitCode = 0 ∧
    ((logAll (actionLoggerSetFailed .warn)
        [⟨.warn, mkContext "artist" "abc" ⟨"", 2⟩, msgNotFound⟩]
        ⟨0, []⟩).exitCode ≠ 0 ↔ (Severity.warn = .warn ∨ Severity.warn = .info)) :=
  ⟨(action_logger_deferred_failure .warn .warn
      (mkContext "artist" "abc" ⟨"", 2⟩) msgNotFound ⟨0, []⟩ []).1 rfl,
   (action_logger_deferred_failure .error .warn
      (mkContext "artist" "abc" ⟨"", 2⟩) msgNotFound ⟨0, []⟩ []).2.1 rfl,
   (action_logger_deferred_failure .warn .warn
      (mkContext "artist" "abc" ⟨"", 2⟩) msgNotFound ⟨0, []⟩
      [⟨.warn, mkContext "artist" "abc" ⟨"", 2⟩, msgNotFound⟩]).2.2.2
      (by decide) (by decide)⟩

/-- C6: the script artifact `db.<k>.js` is exactly the concatenation of the
loader header for kind k, the base64 encoding of the very bytes written to
`db.<k>.json.gz`, the closing chunk, the embedded decompressor source
verbatim, and the closing invocation; and the compressed bytes are the
compression of the JSON text written to `db.<k>.json`. -/
theorem packager_js_artifact_shape {α β : Type} (gzipF : String → β)
    (base64F : β → String) (pakoSrc : String) (stringifyF : α → String)
    (data : α) (type : String) :
    (save gzipF base64F pakoSrc stringifyF data type).jsFile =
      jsHead type ++
        base64F (save gzipF base64F pakoSrc stringifyF data type).gzFile ++
        jsMid ++ pakoSrc ++ jsTail ∧
    (save gzipF base64F pakoSrc stringifyF data type).gzFile =
      gzipF (save gzipF base64F pakoSrc stringifyF data type).jsonFile ∧
    (save gzipF base64F pakoSrc stringifyF data type).jsonFile =
      stringifyF data :=
  ⟨save_jsFile_eq gzipF base64F pakoSrc stringifyF data type, rfl, rfl⟩

/-- C7: when the external codecs satisfy their contracts (inflate inverts
gzip and base64 decoding inverts encoding), decompressing the bytes
written to `db.<k>.json.gz` yields exactly the JSON text written to
`db.<k>.json`, and the payload embedded in `db.<k>.js` between the loader
header and the closing chunk base64-decodes and inflates to that same
JSON text. -/
theorem packager_roundtrip {α β : Type} (gzipF : String → β)
    (inflateF : β → String) (base64F : β → String) (b64decF : String → β)
    (pakoSrc : String) (stringifyF : α → String) (data : α) (type : String)
    (hinf : ∀ s, inflateF (gzipF s) = s)
    (hb64 : ∀ bs, b64decF (base64F bs) = bs) :
    inflateF (save gzipF base64F pakoSrc stringifyF data type).gzFile =
      (save gzipF base64F pakoSrc stringifyF data type).jsonFile ∧
    ∃ payload,
      (save gzipF base64F pakoSrc stringifyF data type).jsFile =
        jsHead type ++ payload ++ jsMid ++ pakoSrc ++ jsTail ∧
      inflateF (b64decF payload) =
        (save gzipF base64F pakoSrc stringifyF data type).jsonFile := by
  refine ⟨hinf _, ⟨base64F (gzipF (stringifyF data)), ?_, ?_⟩⟩
  · exact save_jsFile_eq gzipF base64F pakoSrc stringifyF data type
  · rw [hb64, hinf]
    rfl

/-- Witness for C7 with the identity codecs (which satisfy both contracts)
on a concrete rendered payload. -/
theorem packager_roundtrip_witness :
    inflateId (save gzipId base64Id "PAKO" stringifyId "[]" "full").gzFile =
      (save gzipId base64Id "PAKO" stringifyId "[]" "full").jsonFile ∧
    ∃ payload,
      (save gzipId base64Id "PAKO" stringifyId "[]" "full").jsFile =
        jsHead "full" ++ payload ++ jsMid ++ "PAKO" ++ jsTail ∧
      inflateId (b64decId payload) =
        (save gzipId base64Id "PAKO" stringifyId "[]" "full").jsonFile :=
  packager_roundtrip gzipId inflateId base64Id b64decId "PAKO" stringifyId
    "[]" "full" (fun _ => rfl) (fun _ => rfl)

/-- Counterexample to C8 as stated: a packaging step that fails with a
write error (touching nothing else) leaves the working directory at the
destination, not restored to the prior one, when `createRelease` returns. -/
theorem create_release_no_restore_on_failure :
    (createReleaseRun (fun _ st => (some "EACCES", st)) "/repo/publish"
        ⟨"/repo"⟩).1 = some "EACCES" ∧
    (createReleaseRun (fun _ st => (some "EACCES", st)) "/repo/publish"
        ⟨"/repo"⟩).2.cwd = "/repo/publish" ∧
    "/repo/publish" ≠ "/repo" :=
  ⟨rfl, rfl, by decide⟩

/-- C8 amended: when the packaging loop completes without error,
`createRelease` restores the prior working directory before returning; on
failure the error propagates with the working directory left as the
packaging loop left it. -/
theorem create_release_restores_cwd_on_success
    (saveK : String → ProcEnv → Option String × ProcEnv)
    (destination : String) (st : ProcEnv)
    (h : (createReleaseRun saveK destination st).1 = none) :
    (createReleaseRun saveK destination st).2.cwd = st.cwd := by
  unfold createReleaseRun at h ⊢
  cases hr : runSaves saveK releaseTypes { st with cwd := destination } with
  | mk e st2 =>
    cases e with
    | none => simp [hr]
    | some err => simp [hr] at h

/-- Witness for the amended C8: with save steps that always succeed, the
working directory after `createRelease` equals the one before. -/
theorem create_release_restores_cwd_on_success_witness :
    (createReleaseRun (fun _ st => (none, st)) "/repo/publish"
        ⟨"/repo"⟩).2.cwd = "/repo" :=
  create_release_restores_cwd_on_success (fun _ st => (none, st))
    "/repo/publish" ⟨"/repo"⟩ rfl
